import Mathlib

/-!
Shallow embedding of the involute-gear generator in ABENICS.py.

The floating-point arithmetic of the source is modelled over ℝ; the
CAD host (Fusion 360 sketches, bodies, timeline) is treated as an
external collaborator, so each drawing call is recorded as the
geometric data the source passes to it.  A Python `math` domain error
(caught by the source's bare `except`, which shows a message box and
falls through returning `None`) is modelled as `Option.none`.
-/

/-- Planar sketch point, mirroring `adsk.core.Point3D` as used by the
source (z is always 0 for tooth-profile geometry). -/
structure Point3D where
  x : ℝ
  y : ℝ
  z : ℝ

/-- Distance from the origin of a sketch point, exactly the formula of
`xy2polar` in the source: `sqrt(x*x + y*y)`. -/
noncomputable def dist_origin (p : Point3D) : ℝ :=
  Real.sqrt (p.x * p.x + p.y * p.y)

/-- Embeds `involutePoint(baseCircleRadius, distFromCenterToInvolutePoint)`.

Source (ABENICS.py, lines 1068-1090):
  triangleSide = sqrt(dist^2 - base^2); alpha = triangleSide / base;
  theta = alpha - acos(base / dist); returns (dist*cos theta, dist*sin theta, 0).
The `try/except` wrapper returns `None` exactly when `sqrt` receives a
negative argument (dist^2 - base^2 < 0) or `alpha` divides by a zero
base radius; both error paths are the `none` branch here. -/
noncomputable def involutePoint (baseCircleRadius distFromCenterToInvolutePoint : ℝ) :
    Option Point3D :=
  if distFromCenterToInvolutePoint ^ 2 - baseCircleRadius ^ 2 < 0 ∨ baseCircleRadius = 0 then
    none
  else
    some ⟨distFromCenterToInvolutePoint *
            Real.cos (Real.sqrt (distFromCenterToInvolutePoint ^ 2 - baseCircleRadius ^ 2) /
                baseCircleRadius -
              Real.arccos (baseCircleRadius / distFromCenterToInvolutePoint)),
          distFromCenterToInvolutePoint *
            Real.sin (Real.sqrt (distFromCenterToInvolutePoint ^ 2 - baseCircleRadius ^ 2) /
                baseCircleRadius -
              Real.arccos (baseCircleRadius / distFromCenterToInvolutePoint)),
          0⟩

/-- The angle the source calls `theta` inside `involutePoint`. -/
noncomputable def involuteTheta (b r : ℝ) : ℝ :=
  Real.sqrt (r ^ 2 - b ^ 2) / b - Real.arccos (b / r)

lemma involutePoint_some (b r : ℝ) (hb : 0 < b) (hbr : b ≤ r) :
    involutePoint b r = some ⟨r * Real.cos (involuteTheta b r), r * Real.sin (involuteTheta b r), 0⟩ := by
  have hsq : b ^ 2 ≤ r ^ 2 := by nlinarith
  have hcond : ¬(r ^ 2 - b ^ 2 < 0 ∨ b = 0) := by
    push_neg
    exact ⟨by linarith, hb.ne'⟩
  rw [involutePoint, if_neg hcond]
  rfl

lemma dist_origin_polar (r θ : ℝ) (hr : 0 ≤ r) :
    dist_origin ⟨r * Real.cos θ, r * Real.sin θ, 0⟩ = r := by
  have hsum : r * Real.cos θ * (r * Real.cos θ) + r * Real.sin θ * (r * Real.sin θ) = r ^ 2 := by
    have h := Real.sin_sq_add_cos_sq θ
    nlinarith
  rw [dist_origin]
  simp only [hsum]
  exact Real.sqrt_sq hr

lemma involutePoint_self (b : ℝ) (hb : 0 < b) : involutePoint b b = some ⟨b, 0, 0⟩ := by
  rw [involutePoint_some b b hb le_rfl]
  have htheta : involuteTheta b b = 0 := by
    rw [involuteTheta, sub_self, Real.sqrt_zero, zero_div, div_self hb.ne', Real.arccos_one,
      sub_zero]
  rw [htheta]
  simp

/-- Claim C6: for every base diameter bd > 0 and sample radius r ≥ bd/2,
`involutePoint(bd/2, r)` returns the point (r·cos θ, r·sin θ) for the
computed involute angle θ, whose distance from the origin is exactly r. -/
theorem involutePoint_on_radius (bd r : ℝ) (hbd : 0 < bd) (hr : bd / 2 ≤ r) :
    ∃ θ, involutePoint (bd / 2) r = some ⟨r * Real.cos θ, r * Real.sin θ, 0⟩ ∧
      dist_origin ⟨r * Real.cos θ, r * Real.sin θ, 0⟩ = r := by
  have hb : 0 < bd / 2 := half_pos hbd
  exact ⟨involuteTheta (bd / 2) r, involutePoint_some _ _ hb hr,
    dist_origin_polar r _ (le_trans hb.le hr)⟩

/-- Witness for C6 at bd = 2, r = 3. -/
theorem involutePoint_on_radius_witness :
    ∃ θ, involutePoint (2 / 2) 3 = some ⟨3 * Real.cos θ, 3 * Real.sin θ, 0⟩ ∧
      dist_origin ⟨3 * Real.cos θ, 3 * Real.sin θ, 0⟩ = 3 :=
  involutePoint_on_radius 2 3 (by norm_num) (by norm_num)

/-- Claim C7: the boundary call `involutePoint(bd/2, bd/2)` (sample radius
equal to the base radius, as happens at i = 0 when od = bd) raises no
domain error and returns the point (bd/2, 0). -/
theorem involutePoint_boundary_safe (bd : ℝ) (hbd : 0 < bd) :
    involutePoint (bd / 2) (bd / 2) = some ⟨bd / 2, 0, 0⟩ :=
  involutePoint_self (bd / 2) (half_pos hbd)

/-- Witness for C7 at bd = 2. -/
theorem involutePoint_boundary_safe_witness :
    involutePoint (2 / 2) (2 / 2) = some ⟨2 / 2, 0, 0⟩ :=
  involutePoint_boundary_safe 2 (by norm_num)

/-- Claim C9 (amended): for base radius b > 0 and sample radius r with
|r| < b — in particular every 0 ≤ r < b — `involutePoint(b, r)` produces
an error result (`none`, the caught math-domain error of `sqrt`), not a
normal point.  As stated over all r < b the claim is false: for r ≤ −b
the argument of `sqrt` is nonnegative and a normal point is produced
(see the counterexample). -/
theorem involutePoint_precondition_fail (b r : ℝ) (_hb : 0 < b) (h1 : -b < r) (h2 : r < b) :
    involutePoint b r = none := by
  have habs : |r| < b := abs_lt.mpr ⟨h1, h2⟩
  have hsq : r ^ 2 < b ^ 2 := by nlinarith [abs_nonneg r, sq_abs r]
  rw [involutePoint, if_pos (Or.inl (by linarith))]

/-- Witness for C9 at b = 1, r = 1/2. -/
theorem involutePoint_precondition_fail_witness : involutePoint 1 (1 / 2) = none :=
  involutePoint_precondition_fail 1 (1 / 2) (by norm_num) (by norm_num) (by norm_num)

/-- Counterexample to C9 as stated: at b = 1, r = −2 we have r < b, yet
`involutePoint` returns a normal point (sqrt(4 − 1) succeeds). -/
theorem involutePoint_neg_radius_cex : involutePoint 1 (-2) ≠ none := by
  have h : ¬(((-2 : ℝ)) ^ 2 - (1 : ℝ) ^ 2 < 0 ∨ (1 : ℝ) = 0) := by
    push_neg
    norm_num
  rw [involutePoint, if_neg h]
  simp

/-- Embeds `get_involutePoints(bd, od, num)` (ABENICS.py, lines 996-1011):
for i in range(num), sample radius r = 0.5*bd + (0.5*(od-bd)/(num-1))*i and
collect `involutePoint(0.5*bd, r)`.  Entries are `Option` because the source
appends whatever `involutePoint` returned, `None` included. -/
noncomputable def get_involutePoints (bd od : ℝ) (num : ℕ) : List (Option Point3D) :=
  (List.range num).map (fun i : ℕ =>
    involutePoint (0.5 * bd) (0.5 * bd + 0.5 * (od - bd) / ((num : ℝ) - 1) * (i : ℝ)))

lemma get_involutePoints_length (bd od : ℝ) (num : ℕ) :
    (get_involutePoints bd od num).length = num := by
  rw [get_involutePoints, List.length_map, List.length_range]

lemma get_involutePoints_get (bd od : ℝ) (num i : ℕ)
    (hi : i < (get_involutePoints bd od num).length) :
    (get_involutePoints bd od num).get ⟨i, hi⟩ =
      involutePoint (0.5 * bd) (0.5 * bd + 0.5 * (od - bd) / ((num : ℝ) - 1) * (i : ℝ)) := by
  have hi' : i < num := by
    rw [get_involutePoints_length] at hi
    exact hi
  rw [List.get_eq_getElem]
  simp only [get_involutePoints, List.getElem_map, List.getElem_range]

/-- Claim C5 (amended): for bd > 0, od ≥ bd and n ≥ 2, `get_involutePoints`
returns exactly n points, the i-th at distance bd/2 + i·(od−bd)/(2(n−1))
from the origin, with first distance bd/2 and last distance od/2; the
distances are strictly increasing provided od > bd (as stated, with od = bd
allowed, strictness fails: all n points coincide at distance bd/2 — see the
counterexample). -/
theorem get_involutePoints_spec (bd od : ℝ) (n : ℕ)
    (hbd : 0 < bd) (hod : bd ≤ od) (hn : 2 ≤ n) :
    (get_involutePoints bd od n).length = n ∧
    (∀ i, (hi : i < (get_involutePoints bd od n).length) →
      ∃ p, (get_involutePoints bd od n).get ⟨i, hi⟩ = some p ∧
        dist_origin p = 0.5 * bd + (i : ℝ) * (od - bd) / (2 * ((n : ℝ) - 1))) ∧
    (bd < od → ∀ i j, (hi : i < (get_involutePoints bd od n).length) →
      (hj : j < (get_involutePoints bd od n).length) → i < j →
      ∀ p q, (get_involutePoints bd od n).get ⟨i, hi⟩ = some p →
        (get_involutePoints bd od n).get ⟨j, hj⟩ = some q →
        dist_origin p < dist_origin q) ∧
    (∀ p, (h0 : 0 < (get_involutePoints bd od n).length) →
      (get_involutePoints bd od n).get ⟨0, h0⟩ = some p → dist_origin p = bd / 2) ∧
    (∀ p, (hl : n - 1 < (get_involutePoints bd od n).length) →
      (get_involutePoints bd od n).get ⟨n - 1, hl⟩ = some p → dist_origin p = od / 2) := by
  have hn1 : (0 : ℝ) < (n : ℝ) - 1 := by
    have : (2 : ℝ) ≤ (n : ℝ) := by exact_mod_cast hn
    linarith
  have hb2 : 0 < 0.5 * bd := by linarith
  have key : ∀ i, (hi : i < (get_involutePoints bd od n).length) →
      ∃ p, (get_involutePoints bd od n).get ⟨i, hi⟩ = some p ∧
        dist_origin p = 0.5 * bd + 0.5 * (od - bd) / ((n : ℝ) - 1) * (i : ℝ) := by
    intro i hi
    have hr : 0.5 * bd ≤ 0.5 * bd + 0.5 * (od - bd) / ((n : ℝ) - 1) * (i : ℝ) := by
      have hterm : 0 ≤ 0.5 * (od - bd) / ((n : ℝ) - 1) * (i : ℝ) := by
        apply mul_nonneg
        · apply div_nonneg (by linarith) hn1.le
        · exact Nat.cast_nonneg i
      linarith
    rw [get_involutePoints_get bd od n i hi, involutePoint_some _ _ hb2 hr]
    refine ⟨_, rfl, ?_⟩
    exact dist_origin_polar _ _ (le_trans hb2.le hr)
  have hform : ∀ i : ℕ, 0.5 * bd + 0.5 * (od - bd) / ((n : ℝ) - 1) * (i : ℝ) =
      0.5 * bd + (i : ℝ) * (od - bd) / (2 * ((n : ℝ) - 1)) := by
    intro i
    field_simp
    ring
  refine ⟨get_involutePoints_length bd od n, ?_, ?_, ?_, ?_⟩
  · intro i hi
    obtain ⟨p, hp, hd⟩ := key i hi
    exact ⟨p, hp, by rw [hd, hform]⟩
  · intro hlt i j hi hj hij p q hp hq
    obtain ⟨p', hp', hd'⟩ := key i hi
    obtain ⟨q', hq', he'⟩ := key j hj
    rw [hp] at hp'
    rw [hq] at hq'
    obtain rfl : p = p' := by injection hp'
    obtain rfl : q = q' := by injection hq'
    rw [hd', he']
    have hij' : (i : ℝ) < (j : ℝ) := by exact_mod_cast hij
    have hpos : 0 < 0.5 * (od - bd) / ((n : ℝ) - 1) := by
      apply div_pos (by linarith) hn1
    nlinarith
  · intro p h0 hp
    obtain ⟨p', hp', hd'⟩ := key 0 h0
    rw [hp] at hp'
    obtain rfl : p = p' := by injection hp'
    rw [hd']
    push_cast
    ring
  · intro p hl hp
    obtain ⟨p', hp', hd'⟩ := key (n - 1) hl
    rw [hp] at hp'
    obtain rfl : p = p' := by injection hp'
    rw [hd']
    have hcast : ((n - 1 : ℕ) : ℝ) = (n : ℝ) - 1 := by
      have : 1 ≤ n := le_trans (by norm_num) hn
      push_cast [this]
      ring
    rw [hcast]
    field_simp
    ring

/-- Witness for C5 at bd = 2, od = 4, n = 3: three points, first at
distance 1 = bd/2, last at distance 2 = od/2. -/
theorem get_involutePoints_spec_witness :
    (get_involutePoints 2 4 3).length = 3 ∧
    (∀ p, (h0 : 0 < (get_involutePoints 2 4 3).length) →
      (get_involutePoints 2 4 3).get ⟨0, h0⟩ = some p → dist_origin p = 2 / 2) ∧
    (∀ p, (hl : 3 - 1 < (get_involutePoints 2 4 3).length) →
      (get_involutePoints 2 4 3).get ⟨3 - 1, hl⟩ = some p → dist_origin p = 4 / 2) := by
  have h := get_involutePoints_spec 2 4 3 (by norm_num) (by norm_num) (by norm_num)
  exact ⟨h.1, h.2.2.2.1, h.2.2.2.2⟩

/-- Counterexample to C5 as stated: at bd = od = 2 (od ≥ bd holds) with
n = 2, both sampled points coincide at distance 1, so the distances are
not strictly increasing. -/
theorem get_involutePoints_cex :
    get_involutePoints 2 2 2 = [some ⟨1, 0, 0⟩, some ⟨1, 0, 0⟩] ∧
    ¬ dist_origin ⟨1, 0, 0⟩ < dist_origin ⟨1, 0, 0⟩ := by
  constructor
  · have h1 : involutePoint 1 1 = some ⟨1, 0, 0⟩ := involutePoint_self 1 one_pos
    apply List.ext_get
    · rw [get_involutePoints_length]
      rfl
    · intro i h1' h2'
      have hlen : i < 2 := by
        rw [get_involutePoints_length] at h1'
        exact h1'
      interval_cases i
      · rw [get_involutePoints_get 2 2 2 0 h1']
        have hr : (0.5 * (2 : ℝ) + 0.5 * ((2 : ℝ) - 2) / (((2 : ℕ) : ℝ) - 1) * ((0 : ℕ) : ℝ)) = 1 := by
          norm_num
        rw [hr]
        have h05 : (0.5 : ℝ) * 2 = 1 := by norm_num
        rw [h05, h1]
        rfl
      · rw [get_involutePoints_get 2 2 2 1 h1']
        have hr : (0.5 * (2 : ℝ) + 0.5 * ((2 : ℝ) - 2) / (((2 : ℕ) : ℝ) - 1) * ((1 : ℕ) : ℝ)) = 1 := by
          norm_num
        rw [hr]
        have h05 : (0.5 : ℝ) * 2 = 1 := by norm_num
        rw [h05, h1]
        rfl
  · exact lt_irrefl _

/-- Embeds `rotate_points` (single-point case) of the source: planar
rotation of (x, y) about the origin by `angle`; the source copies x and y
into a fresh (0,0,0) point, so z of the result is always 0. -/
noncomputable def rotate_point (p : Point3D) (angle : ℝ) : Point3D :=
  ⟨p.x * Real.cos angle - p.y * Real.sin angle,
   p.x * Real.sin angle + p.y * Real.cos angle, 0⟩

/-- Embeds `rotate_points` on a list of points (center = None). -/
noncomputable def rotate_points (ps : List Point3D) (angle : ℝ) : List Point3D :=
  ps.map (fun p => rotate_point p angle)

/-- Python `int()` on a float: truncation toward zero. -/
noncomputable def pytrunc (x : ℝ) : ℤ :=
  if 0 ≤ x then ⌊x⌋ else ⌈x⌉

/-- Parameter record of the `ABENICS` class.  `gearRate` embeds the
source attribute `gear_ratio` (SH teeth / pinion teeth). -/
structure ABENICS where
  module : ℝ
  pressure_angle : ℝ
  gearRate : ℝ
  num_teeth_sh : ℕ
  sh_diameter : ℝ
  pitch_angle : ℝ
  d_pinion : ℝ
  num_teeth_pinion : ℤ
  d_hole_pinion : ℝ
  mp_thickness : ℝ
  backlash : ℝ

/-- Embeds `ABENICS.__init__` (ABENICS.py, lines 128-149).  The source
computes, in order: sh_diameter = 10*module*num_teeth_sh;
pitch_angle = 2π/num_teeth_sh; d_pinion = sh_diameter/gear_ratio;
num_teeth_pinion = int(num_teeth_sh/gear_ratio); backlash = 0.1 (a
literal constant — `__init__` takes no backlash argument). -/
noncomputable def ABENICS.init (module pressure_angle : ℝ) (num_teeth_sh : ℕ)
    (gearRate thickness hole_diameter : ℝ) : ABENICS :=
  { module := module
    pressure_angle := pressure_angle
    gearRate := gearRate
    num_teeth_sh := num_teeth_sh
    sh_diameter := 10 * module * (num_teeth_sh : ℝ)
    pitch_angle := 2 * Real.pi / (num_teeth_sh : ℝ)
    d_pinion := 10 * module * (num_teeth_sh : ℝ) / gearRate
    num_teeth_pinion := pytrunc ((num_teeth_sh : ℝ) / gearRate)
    d_hole_pinion := hole_diameter
    mp_thickness := thickness
    backlash := 0.1 }

/-- The `ABENICS(design=des)` instance built by
`GearCommandExecuteHandler.notify`: every constructor argument is left at
its default (module=1.0, pressure angle = 20°, 40 SH teeth, gear ratio 2,
thickness 4.0, hole diameter 0.4). -/
noncomputable def a0 : ABENICS :=
  ABENICS.init 1 (20 * Real.pi / 180) 40 2 4 0.4

/-- Claim C3 is a code bug: with the default parameters module m = 1 and
N = 40 SH teeth, the constructor stores sh_diameter = 10·m·N = 400, not
the claimed (and docstring-promised) pitch diameter m·N = 40; the
mating-gear diameter half of the claim does hold (d_pinion =
sh_diameter / gear ratio). -/
theorem sh_diameter_not_module_times_teeth :
    a0.sh_diameter = 400 ∧
    a0.sh_diameter ≠ 1 * 40 ∧
    a0.d_pinion = a0.sh_diameter / 2 := by
  refine ⟨?_, ?_, ?_⟩
  · show 10 * 1 * ((40 : ℕ) : ℝ) = 400
    norm_num
  · show 10 * 1 * ((40 : ℕ) : ℝ) ≠ 1 * 40
    norm_num
  · show 10 * 1 * ((40 : ℕ) : ℝ) / 2 = 10 * 1 * ((40 : ℕ) : ℝ) / 2
    rfl

/-- The user-dialog values read by `GearCommandExecuteHandler.notify`
before it constructs the `ABENICS` instance. -/
structure UserInputs where
  module_in : ℝ
  pressure_angle_in : ℝ
  backlash_in : ℝ
  thickness_in : ℝ
  holeDiam_in : ℝ
  num_teeth_in : ℕ
  gearRate_in : ℝ

/-- What `notify` builds from the gear geometry inputs: it calls
`ABENICS(design=des)` with *all defaults* (the dialog values, the
backlash included, are used only for the extrusion distance and the
description text), draws the SH gear sketch at axis angle 0, and uses
the dialog thickness for the MP extrusion. -/
structure NotifyResult where
  gear : ABENICS
  mp_extrude_thickness : ℝ

noncomputable def notify_build (u : UserInputs) : NotifyResult :=
  { gear := ABENICS.init 1 (20 * Real.pi / 180) 40 2 4 0.4
    mp_extrude_thickness := u.thickness_in }

/-- Claim C10: the backlash used in tooth generation is the constant 0.1
(cm) set in `__init__`; the constructor takes no backlash argument and
nothing overwrites the field, so two `notify` runs differing only in the
user-supplied backlash input build identical ABENICS instances (hence
identical tooth geometry). -/
theorem backlash_fixed_constant (m pa g t hd : ℝ) (N : ℕ) (u1 u2 : UserInputs) :
    (ABENICS.init m pa N g t hd).backlash = 0.1 ∧
    (notify_build u1).gear.backlash = 0.1 ∧
    (notify_build u1).gear = (notify_build u2).gear := by
  exact ⟨rfl, rfl, rfl⟩

/-- Sequences a list of optional points: the source dereferences `.x`/`.y`
on every entry, so a single `None` entry aborts the whole tooth. -/
def seqOptions {α : Type} : List (Option α) → Option (List α)
  | [] => some []
  | none :: _ => none
  | some a :: rest => (seqOptions rest).map (fun l => a :: l)

lemma seqOptions_all_some {α : Type} (l : List (Option α))
    (h : ∀ x ∈ l, x ≠ none) : ∃ l2, seqOptions l = some l2 := by
  induction l with
  | nil => exact ⟨[], rfl⟩
  | cons x xs ih =>
    cases x with
    | none => exact absurd rfl (h none (List.mem_cons_self _ _))
    | some a =>
      obtain ⟨l2, hl2⟩ := ih (fun y hy => h y (List.mem_cons_of_mem _ hy))
      exact ⟨a :: l2, by simp [seqOptions, hl2]⟩

/-- `base_diameter` as recomputed at the top of `draw_tooth`:
sh_diameter · cos(pressure angle). -/
noncomputable def ABENICS.base_diameter (a : ABENICS) : ℝ :=
  a.sh_diameter * Real.cos a.pressure_angle

/-- The geometric data of one tooth boundary produced by `draw_tooth`:
the raw involute samples, the centering rotation actually applied, the
intermediate angles, and the two point sequences handed to the sketch
spline calls (after centering, mirroring and placement rotation). -/
structure ToothSketch where
  pointsA_raw : List Point3D
  pitch_point_angle : ℝ
  tooth_thickness_angle : ℝ
  backlash_angle : ℝ
  rotate_angle : ℝ
  pointsA : List Point3D
  pointsB : List Point3D
  tip_mid : Point3D

/-- Success branch of `draw_tooth` (ABENICS.py, lines 161-232), given the
already-computed involute samples `raw` and pitch involute point `pip`:
  pitch_point_angle = atan(pip.y/pip.x);
  tooth_thickness_angle = 2π/(2·num_teeth_sh);
  backlashAngle = (backlash/(0.5·sh_diameter))·0.25;
  rotate_angle = −(0.5·tooth_thickness_angle + pitch_point_angle − backlashAngle);
  points_a := rotate(raw, rotate_angle); points_b := mirror of points_a;
  both then rotated by the placement angle; tip arc mid point at
  (0.5·tip_diameter, 0) rotated by the placement angle. -/
noncomputable def draw_tooth_body (a : ABENICS) (tip_diameter angle : ℝ)
    (raw : List Point3D) (pip : Point3D) : ToothSketch :=
  let pitch_point_angle := Real.arctan (pip.y / pip.x)
  let tooth_thickness_angle := 2 * Real.pi / (2 * (a.num_teeth_sh : ℝ))
  let backlashAngle := a.backlash / (0.5 * a.sh_diameter) * 0.25
  let rotate_angle := -(0.5 * tooth_thickness_angle + pitch_point_angle - backlashAngle)
  let points_a := rotate_points raw rotate_angle
  let points_b := points_a.map (fun p => ⟨p.x, -p.y, 0⟩)
  { pointsA_raw := raw
    pitch_point_angle := pitch_point_angle
    tooth_thickness_angle := tooth_thickness_angle
    backlash_angle := backlashAngle
    rotate_angle := rotate_angle
    pointsA := rotate_points points_a angle
    pointsB := rotate_points points_b angle
    tip_mid := rotate_point ⟨0.5 * tip_diameter, 0, 0⟩ angle }

/-- Embeds `ABENICS.draw_tooth` (ABENICS.py, lines 161-257): sample the
involute between base and tip diameter (15 points), locate the pitch
involute point, then build the tooth boundary; any `None` involute point
aborts (the CAD spline / arc / root-line creation calls are the external
collaborator and are not modelled beyond their geometric inputs; the
`root_diameter` argument only feeds those root-connection curves). -/
noncomputable def ABENICS.draw_tooth (a : ABENICS)
    (root_diameter tip_diameter angle : ℝ) : Option ToothSketch :=
  (seqOptions (get_involutePoints a.base_diameter tip_diameter 15)).bind (fun raw =>
    (involutePoint (0.5 * a.base_diameter) (0.5 * a.sh_diameter)).map (fun pip =>
      draw_tooth_body a tip_diameter angle raw pip))

lemma draw_tooth_succeeds (a : ABENICS) (rd td ang : ℝ)
    (h1 : 0 < a.sh_diameter) (h2 : 0 < Real.cos a.pressure_angle)
    (h4 : a.base_diameter ≤ td) :
    ∃ ts, a.draw_tooth rd td ang = some ts ∧
      ts.tooth_thickness_angle = 2 * Real.pi / (2 * (a.num_teeth_sh : ℝ)) ∧
      ts.backlash_angle = a.backlash / (0.5 * a.sh_diameter) * 0.25 ∧
      ts.rotate_angle = -(0.5 * ts.tooth_thickness_angle + ts.pitch_point_angle -
        ts.backlash_angle) ∧
      ts.pointsA = rotate_points (rotate_points ts.pointsA_raw ts.rotate_angle) ang := by
  have hbase : 0 < a.base_diameter := mul_pos h1 h2
  have hb2 : 0 < 0.5 * a.base_diameter := by linarith
  have hseq : ∀ x ∈ get_involutePoints a.base_diameter td 15, x ≠ none := by
    intro x hx
    rw [get_involutePoints] at hx
    obtain ⟨i, _, rfl⟩ := List.mem_map.mp hx
    have hr : 0.5 * a.base_diameter ≤
        0.5 * a.base_diameter + 0.5 * (td - a.base_diameter) / (((15 : ℕ) : ℝ) - 1) * (i : ℝ) := by
      have hterm : 0 ≤ 0.5 * (td - a.base_diameter) / (((15 : ℕ) : ℝ) - 1) * (i : ℝ) := by
        apply mul_nonneg
        · apply div_nonneg (by linarith) (by norm_num)
        · exact Nat.cast_nonneg i
      linarith
    rw [involutePoint_some _ _ hb2 hr]
    exact Option.some_ne_none _
  obtain ⟨raw, hraw⟩ := seqOptions_all_some _ hseq
  obtain ⟨pip, hpip⟩ : ∃ p, involutePoint (0.5 * a.base_diameter) (0.5 * a.sh_diameter) = some p := by
    refine ⟨_, involutePoint_some _ _ hb2 ?_⟩
    have : a.base_diameter ≤ a.sh_diameter :=
      mul_le_of_le_one_right h1.le (Real.cos_le_one _)
    linarith
  refine ⟨draw_tooth_body a td ang raw pip, ?_, rfl, rfl, rfl, rfl⟩
  rw [ABENICS.draw_tooth, hraw, Option.some_bind, hpip, Option.map_some']

lemma a0_sh_diameter : a0.sh_diameter = 400 := by
  show 10 * 1 * ((40 : ℕ) : ℝ) = 400
  norm_num

lemma a0_num_teeth : a0.num_teeth_sh = 40 := rfl

lemma a0_pressure_angle : a0.pressure_angle = 20 * Real.pi / 180 := rfl

lemma cos20deg_pos : 0 < Real.cos (20 * Real.pi / 180) := by
  have h9 : 20 * Real.pi / 180 = Real.pi / 9 := by ring
  rw [h9]
  apply Real.cos_pos_of_mem_Ioo
  constructor
  · have := Real.pi_pos
    linarith
  · have := Real.pi_pos
    linarith

lemma a0_base_le : a0.base_diameter ≤ 400.2 := by
  rw [ABENICS.base_diameter, a0_sh_diameter, a0_pressure_angle]
  have h1 : (400 : ℝ) * Real.cos (20 * Real.pi / 180) ≤ 400 * 1 := by
    have := Real.cos_le_one (20 * Real.pi / 180)
    nlinarith
  linarith

/-- Claim C4 (amended): in `draw_tooth`, with half tooth-thickness angle
π/toothCount, backlash angle (backlash/(pitchDiameter/2))·0.25 and
pitchPointAngle the polar angle of the pitch-circle involute point, the
involute sequence is rotated by −(halfToothThickness/2 + pitchPointAngle
− backlashAngle): the source halves the π/toothCount angle once more
(`0.5 * tooth_thickness_angle`), so the claimed −(halfToothThickness +
pitchPointAngle − backlashAngle) is off by π/(2·toothCount) — see the
counterexample. -/
theorem draw_tooth_centering (a : ABENICS) (rd td ang : ℝ)
    (h1 : 0 < a.sh_diameter) (h2 : 0 < Real.cos a.pressure_angle)
    (h4 : a.base_diameter ≤ td) :
    ∃ ts, a.draw_tooth rd td ang = some ts ∧
      ts.backlash_angle = a.backlash / (a.sh_diameter / 2) * 0.25 ∧
      ts.rotate_angle = -((Real.pi / (a.num_teeth_sh : ℝ)) / 2 + ts.pitch_point_angle -
        ts.backlash_angle) ∧
      ts.pointsA = rotate_points (rotate_points ts.pointsA_raw ts.rotate_angle) ang := by
  obtain ⟨ts, hts, htta, hba, hrot, hpts⟩ := draw_tooth_succeeds a rd td ang h1 h2 h4
  refine ⟨ts, hts, ?_, ?_, hpts⟩
  · rw [hba]
    ring
  · rw [hrot, htta]
    have hhalf : 0.5 * (2 * Real.pi / (2 * (a.num_teeth_sh : ℝ))) =
        (Real.pi / (a.num_teeth_sh : ℝ)) / 2 := by
      rcases eq_or_ne ((a.num_teeth_sh : ℝ)) 0 with h | h
      · rw [h]
        norm_num
      · field_simp
        ring
    rw [hhalf]

/-- Witness for C4 at the default parameter set (a0), root diameter
399.75, tip diameter 400.2, placement angle 0. -/
theorem draw_tooth_centering_witness :
    ∃ ts, a0.draw_tooth 399.75 400.2 0 = some ts ∧
      ts.backlash_angle = a0.backlash / (a0.sh_diameter / 2) * 0.25 ∧
      ts.rotate_angle = -((Real.pi / (a0.num_teeth_sh : ℝ)) / 2 + ts.pitch_point_angle -
        ts.backlash_angle) ∧
      ts.pointsA = rotate_points (rotate_points ts.pointsA_raw ts.rotate_angle) 0 :=
  draw_tooth_centering a0 399.75 400.2 0
    (by rw [a0_sh_diameter]; norm_num)
    (by rw [a0_pressure_angle]; exact cos20deg_pos)
    a0_base_le

/-- Counterexample to C4 as stated: at the default parameter set
(toothCount = 40, so the claimed half tooth-thickness angle is π/40),
the rotation the code applies is not −(π/40 + pitchPointAngle −
backlashAngle); it is −(π/80 + pitchPointAngle − backlashAngle). -/
theorem draw_tooth_centering_cex :
    ∃ ts, a0.draw_tooth 399.75 400.2 0 = some ts ∧
      ts.rotate_angle ≠ -(Real.pi / 40 + ts.pitch_point_angle - ts.backlash_angle) := by
  obtain ⟨ts, hts, htta, _, hrot, _⟩ := draw_tooth_succeeds a0 399.75 400.2 0
    (by rw [a0_sh_diameter]; norm_num)
    (by rw [a0_pressure_angle]; exact cos20deg_pos)
    a0_base_le
  refine ⟨ts, hts, ?_⟩
  rw [hrot, htta, a0_num_teeth]
  intro heq
  have hpi := Real.pi_pos
  have h80 : 0.5 * (2 * Real.pi / (2 * ((40 : ℕ) : ℝ))) = Real.pi / 80 := by
    norm_num
    ring
  rw [h80] at heq
  have : Real.pi / 80 = Real.pi / 40 := by linarith
  linarith

/-- Geometric record of one `draw_gear` pass (ABENICS.py, lines 262-310):
the root fan (an arc swept by π plus its diameter-closing line), the
construction-only tip circle, and the tooth profiles with the placement
angle passed to each `draw_tooth` call. -/
structure GearSketch where
  root_arc_sweep : ℝ
  arc_start : Point3D
  arc_end : Point3D
  tip_circle_radius : ℝ
  tip_circle_isConstruction : Bool
  teeth : List (ℝ × Option ToothSketch)

/-- Embeds `ABENICS.draw_gear`: dedendum = 1.25·module·0.1 (mm→cm),
root diameter = sh_diameter − 2·dedendum, tip diameter =
sh_diameter + 2·module·0.1; the tooth loop runs
`for i in range(int(0.5*num_teeth_sh))` — i.e. ⌊num_teeth_sh/2⌋ times —
at angle pitch_angle·i + 0.5·pitch_angle + axis_angle. -/
noncomputable def ABENICS.draw_gear (a : ABENICS) (axis_angle : ℝ) : GearSketch :=
  { root_arc_sweep := Real.pi
    arc_start := rotate_point ⟨0.5 * (a.sh_diameter - 2 * (1.25 * a.module * 0.1)), 0, 0⟩ axis_angle
    arc_end := rotate_point ⟨-(0.5 * (a.sh_diameter - 2 * (1.25 * a.module * 0.1))), 0, 0⟩ axis_angle
    tip_circle_radius := 0.5 * (a.sh_diameter + 2 * a.module * 0.1)
    tip_circle_isConstruction := true
    teeth := (List.range (a.num_teeth_sh / 2)).map (fun i : ℕ =>
      (a.pitch_angle * (i : ℝ) + 0.5 * a.pitch_angle + axis_angle,
       a.draw_tooth (a.sh_diameter - 2 * (1.25 * a.module * 0.1))
         (a.sh_diameter + 2 * a.module * 0.1)
         (a.pitch_angle * (i : ℝ) + 0.5 * a.pitch_angle + axis_angle))) }

/-- Claim C8: for tooth count N ≥ 4 and any axis placement angle, the
full-gear pass draws exactly ⌊N/2⌋ tooth profiles, the i-th placed at
angle pitchAngle·i + pitchAngle/2 + axisAngle, together with a
root-diameter arc spanning π radians (plus its diameter-closing line
recorded by `arc_start`/`arc_end`) and a construction-only tip circle. -/
theorem draw_gear_layout (a : ABENICS) (ax : ℝ) (_hN : 4 ≤ a.num_teeth_sh) :
    (a.draw_gear ax).teeth.length = a.num_teeth_sh / 2 ∧
    (∀ i, (hi : i < (a.draw_gear ax).teeth.length) →
      ((a.draw_gear ax).teeth.get ⟨i, hi⟩).1 =
        a.pitch_angle * (i : ℝ) + a.pitch_angle / 2 + ax) ∧
    (a.draw_gear ax).root_arc_sweep = Real.pi ∧
    (a.draw_gear ax).tip_circle_isConstruction = true := by
  refine ⟨?_, ?_, rfl, rfl⟩
  · simp only [ABENICS.draw_gear]
    rw [List.length_map, List.length_range]
  · intro i hi
    rw [List.get_eq_getElem]
    simp only [ABENICS.draw_gear, List.getElem_map, List.getElem_range]
    ring

/-- Witness for C8 at the default parameter set, axis angle 0: the pass
draws 20 = ⌊40/2⌋ teeth and a π root arc. -/
theorem draw_gear_layout_witness :
    (a0.draw_gear 0).teeth.length = 20 ∧ (a0.draw_gear 0).root_arc_sweep = Real.pi := by
  have h := draw_gear_layout a0 0 (by rw [a0_num_teeth]; norm_num)
  refine ⟨?_, h.2.2.1⟩
  rw [h.1, a0_num_teeth]

/-- The two gear bodies mutated by the engrave loop. -/
inductive GearBody
  | sh
  | mp

/-- Record of one `combineFeatures` cut created by `ABENICS.engrave`
(ABENICS.py, lines 358-368): target = the MP body, tool = the SH body,
`isKeepToolBodies = True`, operation = CutFeatureOperation. -/
structure CombineRec where
  targetBody : GearBody
  toolBodies : List GearBody
  isKeepToolBodies : Bool
  operationIsCut : Bool

def ABENICS.engrave (_a : ABENICS) : CombineRec :=
  { targetBody := GearBody.mp
    toolBodies := [GearBody.sh]
    isKeepToolBodies := true
    operationIsCut := true }

/-- Record of one `moveFeatures` rigid rotation about the z-up axis
through (originX, originY, 0). -/
structure MoveRec where
  angle : ℝ
  originX : ℝ
  originY : ℝ

/-- Embeds `ABENICS.rotate_gears(angle)` (ABENICS.py, lines 370-406):
the SH body is rotated by angle/gear_ratio about the origin, the MP body
by −angle about (0.5·sh_diameter + 0.5·d_pinion, 0, 0). -/
noncomputable def ABENICS.rotate_gears (a : ABENICS) (angle : ℝ) : MoveRec × MoveRec :=
  (⟨angle / a.gearRate, 0, 0⟩,
   ⟨-angle, 0.5 * a.sh_diameter + 0.5 * a.d_pinion, 0⟩)

/-- One iteration of the engrave loop: a cut followed by the two
rotations (grouped as one timeline operation by the host). -/
structure EngraveStep where
  cut : CombineRec
  move_sh : MoveRec
  move_mp : MoveRec

/-- Embeds the engrave loop of `GearCommandExecuteHandler.notify`
(ABENICS.py, lines 751-762), generalized over the step count: the source
fixes num_steps = 36; delta_angle = 2π/num_steps, and each step performs
`engrave()` then `rotate_gears(delta_angle)`. -/
noncomputable def engrave_loop (a : ABENICS) (num_steps : ℕ) : List EngraveStep :=
  (List.range num_steps).map (fun _ : ℕ =>
    { cut := a.engrave
      move_sh := (a.rotate_gears (2 * Real.pi / (num_steps : ℝ))).1
      move_mp := (a.rotate_gears (2 * Real.pi / (num_steps : ℝ))).2 })

/-- Cumulative rotation applied to the SH body across the loop. -/
noncomputable def total_sh_rotation (steps : List EngraveStep) : ℝ :=
  (steps.map (fun s => s.move_sh.angle)).sum

/-- Cumulative rotation applied to the MP body across the loop. -/
noncomputable def total_mp_rotation (steps : List EngraveStep) : ℝ :=
  (steps.map (fun s => s.move_mp.angle)).sum

lemma engrave_loop_eq (a : ABENICS) (S : ℕ) :
    engrave_loop a S = List.replicate S
      { cut := a.engrave
        move_sh := (a.rotate_gears (2 * Real.pi / (S : ℝ))).1
        move_mp := (a.rotate_gears (2 * Real.pi / (S : ℝ))).2 } := by
  rw [engrave_loop, List.map_const', List.length_range]

/-- Claim C1: for gear ratio g > 0 and S ≥ 1 steps, the engrave loop uses
the fixed increment Δθ = 2π/S; each step rotates the SH body by Δθ/g
about the origin and the MP body by −Δθ about its meshing axis at
x = 0.5·sh_diameter + 0.5·d_pinion, so the cumulative SH rotation is
2π/g and the cumulative MP rotation is −2π. -/
theorem engrave_loop_closure (a : ABENICS) (S : ℕ) (hg : 0 < a.gearRate) (hS : 1 ≤ S) :
    (∀ s ∈ engrave_loop a S,
      s.move_sh.angle = (2 * Real.pi / (S : ℝ)) / a.gearRate ∧
      s.move_sh.originX = 0 ∧ s.move_sh.originY = 0 ∧
      s.move_mp.angle = -(2 * Real.pi / (S : ℝ)) ∧
      s.move_mp.originX = 0.5 * a.sh_diameter + 0.5 * a.d_pinion) ∧
    total_sh_rotation (engrave_loop a S) = 2 * Real.pi / a.gearRate ∧
    total_mp_rotation (engrave_loop a S) = -(2 * Real.pi) := by
  have hS' : ((S : ℝ)) ≠ 0 := by
    have : 0 < S := hS
    exact_mod_cast this.ne'
  refine ⟨?_, ?_, ?_⟩
  · intro s hs
    rw [engrave_loop_eq] at hs
    have hs' := List.eq_of_mem_replicate hs
    subst hs'
    exact ⟨rfl, rfl, rfl, rfl, rfl⟩
  · rw [total_sh_rotation, engrave_loop_eq, List.map_replicate, List.sum_replicate,
      nsmul_eq_mul]
    show (S : ℝ) * ((2 * Real.pi / (S : ℝ)) / a.gearRate) = 2 * Real.pi / a.gearRate
    field_simp
    ring
  · rw [total_mp_rotation, engrave_loop_eq, List.map_replicate, List.sum_replicate,
      nsmul_eq_mul]
    show (S : ℝ) * (-(2 * Real.pi / (S : ℝ))) = -(2 * Real.pi)
    field_simp
    ring

lemma a0_gearRate : a0.gearRate = 2 := rfl

/-- Witness for C1 at the source's actual run: defaults (gear ratio 2)
and S = 36 steps; the SH body accumulates exactly π and the MP body
exactly −2π. -/
theorem engrave_loop_closure_witness :
    total_sh_rotation (engrave_loop a0 36) = Real.pi ∧
    total_mp_rotation (engrave_loop a0 36) = -(2 * Real.pi) := by
  have h := engrave_loop_closure a0 36 (by rw [a0_gearRate]; norm_num) (by norm_num)
  refine ⟨?_, h.2.2⟩
  rw [h.2.1, a0_gearRate]
  ring

/-- Claim C2: every one of the S engrave steps cuts the SH body's volume
out of the MP body with `isKeepToolBodies = True`, so the SH body is
never consumed and stays available as the tool of the next step. -/
theorem engrave_loop_keeps_tool (a : ABENICS) (S : ℕ) :
    (engrave_loop a S).length = S ∧
    ∀ s ∈ engrave_loop a S,
      s.cut.isKeepToolBodies = true ∧ s.cut.operationIsCut = true ∧
      s.cut.targetBody = GearBody.mp ∧ s.cut.toolBodies = [GearBody.sh] := by
  constructor
  · rw [engrave_loop_eq, List.length_replicate]
  · intro s hs
    rw [engrave_loop_eq] at hs
    have hs' := List.eq_of_mem_replicate hs
    subst hs'
    exact ⟨rfl, rfl, rfl, rfl⟩

/-- Witness for C2 at the source's actual run (36 steps): the trace has
36 cuts and its first step keeps the tool body. -/
theorem engrave_loop_keeps_tool_witness :
    (engrave_loop a0 36).length = 36 ∧
    ((engrave_loop a0 36).get
      ⟨0, by rw [engrave_loop_eq, List.length_replicate]; norm_num⟩).cut.isKeepToolBodies = true := by
  have h := engrave_loop_keeps_tool a0 36
  exact ⟨h.1, (h.2 _ (List.get_mem _ _ _)).1⟩
